import Mathlib

/-!
Verification of the InvoiceProcessing extraction-and-pricing core.

This file shallowly embeds the algorithmic core of the repository
(`src/invproc/pricing.py`, `weight_parser.py`, `services/row_enrichment.py`,
`llm_extractor.py`, `extract_cache.py`, `validator.py`, `config.py`,
`pdf_processor.py`, `import_service.py`, `repositories/memory.py`)
and proves the specification claims about it.

Modelling conventions:
- Python `float` values are modelled as exact rationals (`ℚ`).  Where
  finiteness of a float matters (`math.isfinite` checks), a float is
  modelled by `PFloat`, which is either a finite rational or one of the
  IEEE non-finite values `nan` / `inf` / `-inf`.
- Python `round(x, 4)` is modelled as decimal rounding to four places with
  ties to even (`round4`), matching CPython's documented behaviour.
- Python exceptions are modelled with `Except`; an exception value is the
  message string (plus a constructor distinguishing the exception class
  when the class itself matters).
- Mutation of objects is modelled by explicit state passing.
-/

namespace InvProc

/-- Model of a Python float where finiteness matters: a finite rational or
one of the non-finite IEEE values. -/
inductive PFloat where
  | fin (q : ℚ)
  | nan
  | inf
  | ninf
deriving DecidableEq

/-- `math.isfinite` on the float model. -/
def PFloat.isFinite : PFloat → Bool
  | .fin _ => true
  | _ => false

/-- The rational value of a finite float (0 on non-finite values, which is
only used after a finiteness check has passed). -/
def PFloat.toRat : PFloat → ℚ
  | .fin q => q
  | _ => 0

/-- Round a rational to the nearest integer with ties to even, as CPython's
`round` does at the decimal level. -/
def roundHalfEven (x : ℚ) : ℤ :=
  let n := Rat.floor x
  let r := x - (n : ℚ)
  if r < 1/2 then n
  else if 1/2 < r then n + 1
  else if n % 2 = 0 then n else n + 1

/-- `pricing._round4`: Python `round(value, 4)`. -/
def round4 (value : ℚ) : ℚ :=
  ((roundHalfEven (value * 10000) : ℤ) : ℚ) / 10000

/-- `pricing.PricingResult`: computed pricing for a single invoice row. -/
structure PricingResult where
  base_price_eur : ℚ
  transport_eur : ℚ
  price_50 : ℚ
  price_70 : ℚ
  price_100 : ℚ
deriving DecidableEq

/-- `pricing.compute_pricing`: Excel-parity pricing with fixed constants.
The five finiteness checks run first (in the tuple order of the source),
then the sign constraints, then the formula. -/
def compute_pricing (line_total_lei quantity weight_kg fx_lei_to_eur
    transport_rate_per_kg : PFloat) : Except String PricingResult :=
  if ¬ line_total_lei.isFinite then .error "line_total_lei must be finite"
  else if ¬ quantity.isFinite then .error "quantity must be finite"
  else if ¬ weight_kg.isFinite then .error "weight_kg must be finite"
  else if ¬ fx_lei_to_eur.isFinite then .error "fx_lei_to_eur must be finite"
  else if ¬ transport_rate_per_kg.isFinite then
    .error "transport_rate_per_kg must be finite"
  else if quantity.toRat ≤ 0 then .error "quantity must be positive"
  else if line_total_lei.toRat < 0 then .error "line_total_lei cannot be negative"
  else if weight_kg.toRat ≤ 0 then .error "weight_kg must be positive"
  else if fx_lei_to_eur.toRat ≤ 0 then .error "fx_lei_to_eur must be positive"
  else if transport_rate_per_kg.toRat ≤ 0 then
    .error "transport_rate_per_kg must be positive"
  else
    let base := line_total_lei.toRat / quantity.toRat / fx_lei_to_eur.toRat
    let transport := weight_kg.toRat * transport_rate_per_kg.toRat
    let landed := base + transport
    .ok { base_price_eur := round4 base
          transport_eur := round4 transport
          price_50 := round4 (landed * 1.5)
          price_70 := round4 (landed * 1.7)
          price_100 := round4 (landed * 2.0) }

/-- The exhaustive numeric precondition of `compute_pricing`: all five
inputs finite, `quantity`, `weight_kg`, `fx_lei_to_eur`,
`transport_rate_per_kg` positive and `line_total_lei` non-negative. -/
def validPricingInputs (line_total_lei quantity weight_kg fx_lei_to_eur
    transport_rate_per_kg : PFloat) : Prop :=
  line_total_lei.isFinite = true ∧ quantity.isFinite = true ∧
  weight_kg.isFinite = true ∧ fx_lei_to_eur.isFinite = true ∧
  transport_rate_per_kg.isFinite = true ∧
  0 < quantity.toRat ∧ 0 ≤ line_total_lei.toRat ∧ 0 < weight_kg.toRat ∧
  0 < fx_lei_to_eur.toRat ∧ 0 < transport_rate_per_kg.toRat

instance (a b c d e : PFloat) : Decidable (validPricingInputs a b c d e) := by
  unfold validPricingInputs; infer_instance

instance {ε α : Type} [DecidableEq ε] [DecidableEq α] : DecidableEq (Except ε α) :=
  fun a b =>
  match a, b with
  | .ok x, .ok y => if h : x = y then .isTrue (by rw [h]) else .isFalse (by simp [h])
  | .error x, .error y =>
    if h : x = y then .isTrue (by rw [h]) else .isFalse (by simp [h])
  | .ok _, .error _ => .isFalse (by simp)
  | .error _, .ok _ => .isFalse (by simp)

/-! ## Weight/size parsing (`weight_parser.py`)

The two concrete regular expressions of the source,
`(?<!\w)(\d+(?:[.,]\d+)?)\s*(kg|g|ml|l)\b` and
`(?<!\w)(\d+(?:[.,]\d+)?)\s*[xX]\s*(\d+(?:[.,]\d+)?)\s*(kg|g|ml|l)\b`
(both IGNORECASE), are embedded as explicit matchers over `List Char`.
For these patterns greedy matching never needs backtracking inside a
start position (each greedy token is followed by a token that cannot
consume the same characters), so a deterministic maximal-munch matcher
at each start position, tried at positions left to right, realises
Python's `re.search` semantics exactly.  `\w` and `\s` are modelled at
the ASCII fragment exercised by product names. -/

/-- Python `\w` (ASCII fragment): letters, digits, underscore. -/
def pyWordChar (c : Char) : Bool := c.isAlphanum || c == '_'

/-- Python `\s`: the six ASCII whitespace characters. -/
def pySpaceChar (c : Char) : Bool :=
  c == ' ' || c == '\t' || c == '\n' || c == '\r' || c == '\x0b' || c == '\x0c'

/-- Python `str.strip()`: remove leading and trailing whitespace. -/
def pyStrip (s : String) : String :=
  String.mk (((s.toList.dropWhile pySpaceChar).reverse.dropWhile pySpaceChar).reverse)

/-- Python `str.upper()` (ASCII). -/
def pyUpper (s : String) : String := String.mk (s.toList.map Char.toUpper)

/-- Python `str.lower()` (ASCII). -/
def pyLower (s : String) : String := String.mk (s.toList.map Char.toLower)

/-- Python `str.split(sep)` for a one-character separator: split at every
occurrence, keeping empty pieces. -/
def pySplitChar (sep : Char) (s : String) : List String :=
  let rec go : List Char → List Char → List String
    | acc, [] => [String.mk acc.reverse]
    | acc, c :: cs => if c == sep then String.mk acc.reverse :: go [] cs
        else go (c :: acc) cs
  go [] s.toList

/-- Code-point lexicographic order on character lists (Python string
comparison). -/
def listLe : List Char → List Char → Bool
  | [], _ => true
  | _ :: _, [] => false
  | a :: as, b :: bs => if a == b then listLe as bs else decide (a.toNat < b.toNat)

/-- Python `<=` on strings: code-point lexicographic. -/
def pyStrLe (a b : String) : Bool := listLe a.toList b.toList

/-- Python `sep.join(xs)`. -/
def pyJoin (sep : String) : List String → String
  | [] => ""
  | [x] => x
  | x :: xs => x ++ sep ++ pyJoin sep xs

/-- Stable insertion step: `x` goes after every element `y` with
`le y x`. -/
def insertOrd {α : Type} (le : α → α → Bool) (x : α) : List α → List α
  | [] => [x]
  | y :: ys => if le y x then y :: insertOrd le x ys else x :: y :: ys

/-- Python `sorted(xs)` by a total preorder: a stable ascending sort
(insertion sort here; all stable sorts by the same key coincide, so this
is exactly `sorted`'s output). -/
def pySorted {α : Type} (le : α → α → Bool) (l : List α) : List α :=
  l.foldr (insertOrd le) []

/-- Decimal digit character. -/
def digitChar (n : ℕ) : Char := Char.ofNat (48 + n)

/-- Decimal rendering of a natural number (Python `str`), with the first
argument as structural fuel. -/
def natReprGo : ℕ → ℕ → List Char
  | 0, n => [digitChar (n % 10)]
  | fuel + 1, n => if n < 10 then [digitChar n]
      else natReprGo fuel (n / 10) ++ [digitChar (n % 10)]

/-- Python `str` of a natural number. -/
def pyNatRepr (n : ℕ) : String := String.mk (natReprGo n n)

/-- Python `str` of an integer. -/
def pyIntRepr (i : ℤ) : String :=
  if i < 0 then "-" ++ pyNatRepr i.natAbs else pyNatRepr i.natAbs

/-- Numeric value of a digit string. -/
def digitsToNat (l : List Char) : ℕ :=
  l.foldl (fun a c => 10 * a + (c.toNat - 48)) 0

/-- Greedy match of `\d+(?:[.,]\d+)?` at the head of the input; returns the
matched characters and the remaining input. -/
def matchNumber (l : List Char) : Option (List Char × List Char) :=
  let ds := l.takeWhile Char.isDigit
  if ds.isEmpty then none
  else
    match l.drop ds.length with
    | c :: r2 =>
      if c == '.' || c == ',' then
        let fs := r2.takeWhile Char.isDigit
        if fs.isEmpty then some (ds, c :: r2)
        else some (ds ++ c :: fs, r2.drop fs.length)
      else some (ds, c :: r2)
    | [] => some (ds, [])

/-- Value of a matched number group, i.e. Python
`float(group.replace(",", "."))` on the digit/separator characters the
number pattern can produce. -/
def numValue (cs : List Char) : ℚ :=
  let ip := cs.takeWhile Char.isDigit
  let fp := ((cs.drop ip.length).drop 1).takeWhile Char.isDigit
  (digitsToNat ip : ℚ) +
    (if fp.isEmpty then 0 else (digitsToNat fp : ℚ) / (10 : ℚ) ^ fp.length)

/-- Case-insensitive literal match (`pat` given in lowercase); returns the
original matched characters and the rest. -/
def matchLit : List Char → List Char → Option (List Char × List Char)
  | [], l => some ([], l)
  | _ :: _, [] => none
  | p :: ps, c :: cs =>
    if c.toLower == p then
      match matchLit ps cs with
      | some (m, r) => some (c :: m, r)
      | none => none
    else none

/-- `\b` after a unit: next character absent or not a word character. -/
def wordBoundary : List Char → Bool
  | [] => true
  | c :: _ => !pyWordChar c

/-- Regex alternation of literal units followed by `\b`, tried in the
pattern's left-to-right order.  (When one alternative matches literally
but fails the boundary, no other alternative of these unit sets can match
at the same position, since none is a prefix of another's match.) -/
def matchUnitAlts : List (List Char) → List Char → Option (List Char × List Char)
  | [], _ => none
  | pat :: ps, l =>
    match matchLit pat l with
    | some (m, r) => if wordBoundary r then some (m, r) else matchUnitAlts ps l
    | none => matchUnitAlts ps l

/-- Unit alternatives of `_WEIGHT_PATTERN` / `_MULTIPACK_PATTERN`:
`(kg|g|ml|l)`. -/
def weightUnits : List (List Char) := [['k', 'g'], ['g'], ['m', 'l'], ['l']]

/-- Unit alternatives of `_LIQUID_HINT_PATTERN`: `(l|ml)`. -/
def liquidUnits : List (List Char) := [['l'], ['m', 'l']]

/-- Match `_MULTIPACK_PATTERN` at the current position.  Returns
(whole match, count group, value group, lowercased unit). -/
def matchMultiAt (l : List Char) :
    Option (List Char × List Char × List Char × List Char) :=
  match matchNumber l with
  | none => none
  | some (n1, r1) =>
    let s1 := r1.takeWhile pySpaceChar
    match r1.drop s1.length with
    | [] => none
    | xc :: r3 =>
      if xc == 'x' || xc == 'X' then
        let s2 := r3.takeWhile pySpaceChar
        match matchNumber (r3.drop s2.length) with
        | none => none
        | some (n2, r5) =>
          let s3 := r5.takeWhile pySpaceChar
          match matchUnitAlts weightUnits (r5.drop s3.length) with
          | none => none
          | some (u, _) =>
            some (n1 ++ s1 ++ xc :: (s2 ++ n2 ++ s3 ++ u), n1, n2,
                  u.map Char.toLower)
      else none

/-- Match `_WEIGHT_PATTERN` at the current position.  Returns
(whole match, value group, lowercased unit). -/
def matchSingleAt (l : List Char) : Option (List Char × List Char × List Char) :=
  match matchNumber l with
  | none => none
  | some (n, r1) =>
    let s1 := r1.takeWhile pySpaceChar
    match matchUnitAlts weightUnits (r1.drop s1.length) with
    | none => none
    | some (u, _) => some (n ++ s1 ++ u, n, u.map Char.toLower)

/-- The lookbehind `(?<!\w)`: the previous character (if any) is not a
word character. -/
def prevOk : Option Char → Bool
  | none => true
  | some c => !pyWordChar c

/-- `re.search`: try the position matcher at each start position from the
left, subject to the `(?<!\w)` lookbehind. -/
def searchFrom {α : Type} (f : List Char → Option α) :
    Option Char → List Char → Option α
  | prev, [] => if prevOk prev then f [] else none
  | prev, c :: r =>
    match (if prevOk prev then f (c :: r) else none) with
    | some a => some a
    | none => searchFrom f (some c) r

/-- `pattern.search(s)` over the whole string. -/
def regexSearch {α : Type} (f : List Char → Option α) (s : String) : Option α :=
  searchFrom f none s.toList

/-- The unit conversion if-chain shared verbatim by both branches of
`parse_weight_candidate` (kg, g, l, else-ml). -/
def unitToKg (unit : List Char) (value : ℚ) : ℚ :=
  if unit = ['k', 'g'] then value
  else if unit = ['g'] then value / 1000
  else if unit = ['l'] then value
  else value / 1000

/-- `group(0).upper().replace(" ", "")`. -/
def sizeTokenOf (g0 : List Char) : String :=
  String.mk ((g0.map Char.toUpper).filter (fun c => c != ' '))

/-- `weight_parser.WeightParseResult`. -/
structure WeightParseResult where
  weight_kg : Option ℚ
  size_token : Option String
  parse_confidence : Option ℚ
deriving DecidableEq

/-- `weight_parser.parse_weight_candidate`: first the multipack pattern,
then the single-token pattern; non-positive values yield the all-null
result.  (The source's `float()` calls cannot fail on the matched digit
groups, and in the exact rational model the parsed values are always
finite, so the `isfinite` guard is vacuously true.) -/
def parse_weight_candidate (product_name : String) : WeightParseResult :=
  match regexSearch matchMultiAt product_name with
  | some (g0, n1, n2, u) =>
    let total_value := numValue n1 * numValue n2
    if total_value ≤ 0 then ⟨none, none, none⟩
    else ⟨some (unitToKg u total_value), some (sizeTokenOf g0), some 0.98⟩
  | none =>
    match regexSearch matchSingleAt product_name with
    | none => ⟨none, none, none⟩
    | some (g0, n, u) =>
      let value := numValue n
      if value ≤ 0 then ⟨none, none, none⟩
      else ⟨some (unitToKg u value), some (sizeTokenOf g0), some 0.98⟩

/-- Reference definition of the weight parse, written from the claim's
wording: the multipack pattern is tried first; a match with positive
value yields the converted weight (g and ml divided by 1000, kg and l
unchanged), the uppercased space-stripped matched substring, and
confidence 0.98; otherwise the single-token pattern is tried with the
same conversion and confidence; a non-positive matched value or no match
yields all-null fields. -/
def specUnitFactor (unit : List Char) : ℚ :=
  if unit = ['k', 'g'] ∨ unit = ['l'] then 1 else 1 / 1000

/-- Reference assembly of a successful match, from the claim's wording. -/
def specWeightResult (g0 unit : List Char) (value : ℚ) : WeightParseResult :=
  if 0 < value then
    ⟨some (value * specUnitFactor unit), some (sizeTokenOf g0), some 0.98⟩
  else ⟨none, none, none⟩

/-- Reference weight parse (claim wording); to be compared with
`parse_weight_candidate`. -/
def specWeightParse (product_name : String) : WeightParseResult :=
  match regexSearch matchMultiAt product_name with
  | some (g0, n1, n2, u) => specWeightResult g0 u (numValue n1 * numValue n2)
  | none =>
    match regexSearch matchSingleAt product_name with
    | some (g0, n, u) => specWeightResult g0 u (numValue n)
    | none => ⟨none, none, none⟩

/-! ## Data model (`models.py`) and row enrichment (`services/row_enrichment.py`) -/

/-- `models.Product` (invoice line item).  The `uom` unit-of-measure tag is
the optional field the spec's data model lists for line items and that
`row_enrichment` reads (`product.uom`); numeric fields are exact
rationals. -/
structure Product where
  raw_code : Option String
  name : String
  uom : Option String
  quantity : ℚ
  unit_price : ℚ
  total_price : ℚ
  confidence_score : ℚ
  row_id : Option String
  weight_kg_candidate : Option ℚ
  size_token : Option String
  parse_confidence : Option ℚ
deriving DecidableEq

/-- `models.InvoiceData`. -/
structure InvoiceData where
  supplier : Option String
  invoice_number : Option String
  date : Option String
  total_amount : ℚ
  currency : String
  products : List Product
deriving DecidableEq

/-- The per-row rewrite of `normalize_kg_weighed_rows`: `(product.uom or
"").strip().upper() == "KG"` selects the row; the measured quantity moves
into `weight_kg_candidate`, quantity becomes 1.0, unit price becomes the
total price, and the name-derived size fields are cleared. -/
def kgRowRewrite (product : Product) : Product :=
  if (pyUpper (pyStrip (product.uom.getD "")) == "KG") then
    { product with
      weight_kg_candidate := some product.quantity
      quantity := 1
      unit_price := product.total_price
      size_token := none
      parse_confidence := none }
  else product

/-- `row_enrichment.normalize_kg_weighed_rows` (in-place mutation of each
product, modelled as a map over the row list). -/
def normalize_kg_weighed_rows (invoice_data : InvoiceData) : InvoiceData :=
  { invoice_data with products := invoice_data.products.map kgRowRewrite }

/-! ## Currency validation (`config.get_allowed_currencies`,
`validator.InvoiceValidator.validate_invoice`) -/

/-- `config.InvoiceConfig.get_allowed_currencies`: the comma-separated
config string split, trimmed, uppercased, empties removed, as a Python
set (modelled as a duplicate-free list); an empty result falls back to
the safe default set. -/
def get_allowed_currencies (allowed_currencies : String) : List String :=
  let currencies :=
    ((pySplitChar ',' allowed_currencies).filterMap (fun c =>
      let t := pyStrip c
      if t = "" then none else some (pyUpper t))).dedup
  if currencies = [] then ["EUR", "USD", "MDL", "RUB", "RON"] else currencies

/-- `validator.InvoiceValidator._validate_product_math`. -/
def validate_product_math (product : Product) : Bool × ℚ :=
  let calculated_total := product.quantity * product.unit_price
  if calculated_total = 0 then (false, 100)
  else
    let discrepancy_pct := |calculated_total - product.total_price| /
      calculated_total * 100
    (decide (discrepancy_pct ≤ 5), discrepancy_pct)

/-- `validator.InvoiceValidator._score_product`. -/
def score_product (product : Product) : ℚ :=
  let m := validate_product_math product
  let s1 : ℚ := if m.1 then 1 else 1 * (1 - m.2 / 20)
  let s2 := if product.name = "" ∨ product.name.length < 3 then s1 * 0.7 else s1
  let s3 := if (product.raw_code.getD "") = "" then s2 * 0.95 else s2
  let s4 := if product.quantity > 1000 ∨ product.quantity < 0.01 then s3 * 0.8 else s3
  let s5 := if product.unit_price > 100000 ∨ product.unit_price < 0.01 then s4 * 0.8
    else s4
  max 0 (min 1 s5)

/-- `validator.InvoiceValidator._calculate_overall_confidence` (computed
for logging only; it does not affect the returned invoice). -/
def calculate_overall_confidence (data : InvoiceData) : ℚ :=
  if data.products = [] then 1
  else
    let avg := (data.products.map (·.confidence_score)).sum /
      (data.products.length : ℚ)
    let f1 : ℚ := if data.supplier.getD "" = "" then 0.95 else 1
    let f2 : ℚ := if data.invoice_number.getD "" = "" then 0.95 else 1
    let f3 : ℚ := if data.date.getD "" = "" then 0.90 else 1
    avg * (f1 * f2 * f3)

/-- `validator.InvoiceValidator.validate_invoice`: uppercase the currency,
reject when not in the allow-set (naming the code and listing the sorted
valid codes), otherwise normalize the currency and rescore each
product. -/
def validate_invoice (allowed_currencies : String) (data : InvoiceData) :
    Except String InvoiceData :=
  let allowed := get_allowed_currencies allowed_currencies
  let v_upper := pyUpper data.currency
  if v_upper ∉ allowed then
    .error ("Invalid currency: " ++ data.currency ++ ". Valid: " ++
      pyJoin ", " (pySorted pyStrLe allowed))
  else
    .ok { data with
          currency := v_upper
          products := data.products.map (fun p =>
            { p with confidence_score := score_product p }) }

/-! ## Extract cache (`extract_cache.py`)

State of one `InMemoryExtractCache` instance.  The ordered dict is an
association list whose front is the least-recently-used end; `time.time()`
is an explicit `now` argument.  All operations run under the instance
lock in the source, so each is modelled as one atomic state
transition. -/

/-- `extract_cache.ExtractCacheEntry`. -/
structure ExtractCacheEntry (α : Type) where
  payload : α
  expires_at : ℚ
  hit_count : ℕ
deriving DecidableEq

/-- `extract_cache.InMemoryExtractCache` state. -/
structure CacheState (α : Type) where
  ttl_sec : ℚ
  max_entries : ℕ
  entries : List (String × ExtractCacheEntry α)
deriving DecidableEq

/-- `_prune_expired_locked`: drop every entry with `expires_at <= now`. -/
def pruneExpired {α : Type} (now : ℚ) (l : List (String × ExtractCacheEntry α)) :
    List (String × ExtractCacheEntry α) :=
  l.filter (fun kv => decide (now < kv.2.expires_at))

/-- `_prune_capacity_locked`: `popitem(last=False)` while over capacity,
i.e. drop from the least-recently-used front down to `max_entries`. -/
def capTrim {α : Type} (max_entries : ℕ) (l : List (String × ExtractCacheEntry α)) :
    List (String × ExtractCacheEntry α) :=
  l.drop (l.length - max_entries)

/-- `InMemoryExtractCache.get`: return the payload unless absent or
expired; an expired entry is popped; a hit bumps the counter and the
assignment plus `move_to_end` moves the (unique) key to the
most-recently-used end. -/
def CacheState.get {α : Type} (st : CacheState α) (now : ℚ) (key : String) :
    Option α × CacheState α :=
  match st.entries.lookup key with
  | none => (none, st)
  | some entry =>
    if entry.expires_at ≤ now then
      (none, { st with entries := st.entries.eraseP (fun kv => kv.1 == key) })
    else
      let updated : ExtractCacheEntry α := { entry with hit_count := entry.hit_count + 1 }
      (some updated.payload,
       { st with entries := st.entries.eraseP (fun kv => kv.1 == key) ++ [(key, updated)] })

/-- `InMemoryExtractCache.set`: prune expired entries, write the key at the
most-recently-used end (the assignment plus `move_to_end`), then enforce
capacity. -/
def CacheState.set {α : Type} (st : CacheState α) (now : ℚ) (key : String)
    (payload : α) : CacheState α :=
  let pruned := pruneExpired now st.entries
  let entry : ExtractCacheEntry α := ⟨payload, now + st.ttl_sec, 0⟩
  { st with entries :=
      capTrim st.max_entries (pruned.eraseP (fun kv => kv.1 == key) ++ [(key, entry)]) }

/-! ## LLM payload normalization (`llm_extractor.py`)

JSON values produced by `json.loads` (numbers as exact rationals; Python
`bool` is a subtype of `int`, so it is numeric for `_to_float`). -/

/-- A JSON value. -/
inductive JVal where
  | null
  | bool (b : Bool)
  | num (q : ℚ)
  | str (s : String)
  | arr (xs : List JVal)
  | obj (fields : List (String × JVal))

/-- The Python exception raised by `_normalize_invoice_payload`: either a
generic `ValueError` or the dedicated `LLMOutputIntegrityError`
subclass. -/
inductive PyError where
  | valueError (msg : String)
  | integrityError (msg : String)
deriving DecidableEq

/-- Replace the value at a key of a JSON object (keeping its position, as
a Python dict item assignment does), appending the key if absent. -/
def objSet : List (String × JVal) → String → JVal → List (String × JVal)
  | [], k, v => [(k, v)]
  | (k', v') :: rest, k, v =>
    if k' = k then (k', v) :: rest else (k', v') :: objSet rest k v

/-- `dict.get(key)`: the stored value, or JSON null for an absent key
(Python `None`). -/
def pyGetD (fields : List (String × JVal)) (key : String) : JVal :=
  (fields.lookup key).getD .null

/-- Python `float()` on a cleaned literal string, restricted to the
finite decimal grammar `[sign] (digits [. digits] | . digits)
[(e|E) [sign] digits]` with the whole string consumed (the `inf`, `nan`
and underscore-separator forms of `float()` are outside the exact
rational model and are not produced by the lenient cleaner's uses
here). -/
def pyFloatLit (s : String) : Option ℚ :=
  let cs := s.toList
  let signAndRest : ℚ × List Char :=
    match cs with
    | '+' :: r => (1, r)
    | '-' :: r => (-1, r)
    | r => (1, r)
  let sign := signAndRest.1
  let ip := signAndRest.2.takeWhile Char.isDigit
  let afterInt := signAndRest.2.drop ip.length
  let fracAndRest : Option (List Char) × List Char :=
    match afterInt with
    | '.' :: r => (some (r.takeWhile Char.isDigit), r.drop (r.takeWhile Char.isDigit).length)
    | r => (none, r)
  let fp := (fracAndRest.1).getD []
  if ip.isEmpty ∧ fp.isEmpty then none
  else
    let mantissa : ℚ := (digitsToNat ip : ℚ) +
      (if fp.isEmpty then 0 else (digitsToNat fp : ℚ) / (10 : ℚ) ^ fp.length)
    match fracAndRest.2 with
    | [] => some (sign * mantissa)
    | e :: rest =>
      if e == 'e' || e == 'E' then
        let esignAndRest : ℤ × List Char :=
          match rest with
          | '+' :: r => (1, r)
          | '-' :: r => (-1, r)
          | r => (1, r)
        let eds := esignAndRest.2.takeWhile Char.isDigit
        if eds.isEmpty ∨ ¬ (esignAndRest.2.drop eds.length).isEmpty then none
        else some (sign * mantissa * (10 : ℚ) ^ (esignAndRest.1 * (digitsToNat eds : ℤ)))
      else none

/-- `LLMExtractor._to_float`: the lenient numeric parse — numeric values
pass through (`bool` counts as `int`), strings are stripped, spaces
removed and a comma read as the decimal point before `float()`; anything
else is `None`. -/
def pyToFloat : JVal → Option ℚ
  | .null => none
  | .bool b => some (if b then 1 else 0)
  | .num q => some q
  | .str s =>
    let cleaned := String.mk (((pyStrip s).toList.filter (fun c => c != ' ')).map
      (fun c => if c == ',' then '.' else c))
    if cleaned = "" then none else pyFloatLit cleaned
  | .arr _ => none
  | .obj _ => none

/-- Python `str()` on the JSON values that can appear here.  The repr of
containers (never a sensible `raw_code` and unused by every theorem
below) is abbreviated; the shortest-roundtrip repr of non-integer floats
is approximated by the exact rational rendering. -/
def pyStr : JVal → String
  | .null => "None"
  | .bool true => "True"
  | .bool false => "False"
  | .num q => if q.den = 1 then pyIntRepr q.num
      else pyIntRepr q.num ++ "/" ++ pyNatRepr q.den
  | .str s => s
  | .arr _ => "[...]"
  | .obj _ => "{...}"

/-- One iteration of the product-row loop of
`_normalize_invoice_payload`: `none` when the row is dropped (not a JSON
object, empty trimmed name, an unparseable quantity / unit price / total
price, or a violated sign constraint), otherwise the cleaned row. -/
def cleanRow : JVal → Option (List (String × JVal))
  | .obj f =>
    let quantity := pyToFloat (pyGetD f "quantity")
    let unit_price := pyToFloat (pyGetD f "unit_price")
    let total_price := pyToFloat (pyGetD f "total_price")
    let name := match f.lookup "name" with
      | some (.str s) => pyStrip s
      | _ => ""
    match quantity, unit_price, total_price with
    | some q, some up, some tp =>
      if name = "" ∨ q ≤ 0 ∨ up ≤ 0 ∨ tp < 0 then none
      else
        let confidence_raw := pyToFloat (pyGetD f "confidence_score")
        let confidence := max 0 (min 1 (confidence_raw.getD 0.5))
        let normalized_code : JVal := match f.lookup "raw_code" with
          | none => .null
          | some .null => .null
          | some v => let t := pyStrip (pyStr v); if t = "" then .null else .str t
        some [("raw_code", normalized_code), ("name", .str name),
              ("quantity", .num q), ("unit_price", .num up),
              ("total_price", .num tp), ("confidence_score", .num confidence)]
    | _, _, _ => none
  | _ => none

/-- `normalized[key] = str(value)` for `value` present, non-null and
non-string (`supplier`, `invoice_number`, `date`). -/
def stringifyKey (fields : List (String × JVal)) (key : String) :
    List (String × JVal) :=
  match fields.lookup key with
  | none => fields
  | some .null => fields
  | some (.str _) => fields
  | some v => objSet fields key (.str (pyStr v))

/-- `products_raw = payload.get("products", [])` followed by the
`isinstance(list)` guard: an absent key or a non-list value yields the
empty row list. -/
def productsRawOf (fields : List (String × JVal)) : List JVal :=
  match fields.lookup "products" with
  | some (.arr xs) => xs
  | _ => []

/-- The `total_amount` coercion step of `_normalize_invoice_payload`. -/
def totalAmountStep (fields : List (String × JVal)) : List (String × JVal) :=
  match pyToFloat (pyGetD fields "total_amount") with
  | some t => objSet fields "total_amount" (.num t)
  | none => fields

/-- The `currency` defaulting/stringification step of
`_normalize_invoice_payload`. -/
def currencyStep (fields : List (String × JVal)) : List (String × JVal) :=
  match fields.lookup "currency" with
  | none => objSet fields "currency" (.str "")
  | some .null => objSet fields "currency" (.str "")
  | some v => objSet fields "currency" (.str (pyStrip (pyStr v)))

/-- `LLMExtractor._normalize_invoice_payload`.  The row loop is expressed
with `filterMap` / `countP` (the kept rows in order, and the number of
dropped rows, exactly as the source's accumulating loop computes
them). -/
def normalize_invoice_payload (payload : JVal) :
    Except PyError (List (String × JVal)) :=
  match payload with
  | .obj fields =>
    let products_raw := productsRawOf fields
    let cleaned_products := products_raw.filterMap cleanRow
    let dropped_products := products_raw.countP (fun p => (cleanRow p).isNone)
    if dropped_products ≠ 0 ∧ cleaned_products.isEmpty then
      .error (.integrityError ("LLM returned " ++ pyNatRepr dropped_products ++
        " malformed product rows"))
    else
      .ok (stringifyKey (stringifyKey (stringifyKey (currencyStep
        (totalAmountStep (objSet fields "products"
          (.arr (cleaned_products.map .obj))))) "supplier") "invoice_number")
        "date")
  | _ => .error (.valueError "LLM payload must be a JSON object")

/-- The claim's row-survival predicate, written from the spec's wording: a
row survives exactly when it has a non-empty trimmed name, all three of
quantity / unit price / total price pass the lenient numeric parse,
quantity and unit price are positive and total price non-negative (a
non-object row has no name, hence never survives). -/
def specRowKept (p : JVal) : Bool :=
  match p with
  | .obj f =>
    (match f.lookup "name" with
     | some (.str s) => pyStrip s ≠ ""
     | _ => false) &&
    (match pyToFloat (pyGetD f "quantity") with
     | some q => decide (0 < q)
     | none => false) &&
    (match pyToFloat (pyGetD f "unit_price") with
     | some up => decide (0 < up)
     | none => false) &&
    (match pyToFloat (pyGetD f "total_price") with
     | some tp => decide (0 ≤ tp)
     | none => false)
  | _ => false

/-! ## Text grid (`pdf_processor.PDFProcessor._generate_text_grid`)

`lines` is a float-keyed insertion-ordered dict of word buckets; it is
modelled as an association list in insertion order.  `int()` truncates
toward zero. -/

/-- An extracted word with its pixel coordinates. -/
structure Word where
  top : ℚ
  x0 : ℚ
  text : String
deriving DecidableEq

/-- Python `int()` on a float: truncation toward zero. -/
def pyTrunc (q : ℚ) : ℤ :=
  if q < 0 then -(Rat.floor (-q)) else Rat.floor q

/-- `lines[matched_top] = []` — dict assignment on a float key (replace in
place, else append). -/
def bucketSet : List (ℚ × List Word) → ℚ → List Word → List (ℚ × List Word)
  | [], k, v => [(k, v)]
  | (k', v') :: rest, k, v =>
    if k' == k then (k', v) :: rest else (k', v') :: bucketSet rest k v

/-- `lines[matched_top].append(word)` — in-place append to the bucket at a
(present) key. -/
def bucketAppend : List (ℚ × List Word) → ℚ → Word → List (ℚ × List Word)
  | [], k, w => [(k, [w])]
  | (k', ws) :: rest, k, w =>
    if k' == k then (k', ws ++ [w]) :: rest else (k', ws) :: bucketAppend rest k w

/-- One iteration of the grouping loop: scan existing bucket keys in
creation order for the first within `tolerance` of the word's `top`;
join it, or create a new bucket keyed by this word's `top`. -/
def addWordToBuckets (tolerance : ℚ) (buckets : List (ℚ × List Word))
    (word : Word) : List (ℚ × List Word) :=
  match buckets.find? (fun b => decide (|b.1 - word.top| ≤ tolerance)) with
  | some b => bucketAppend buckets b.1 word
  | none => bucketAppend (bucketSet buckets word.top []) word.top word

/-- The rendering loop of one line: each word is placed after padding of
`max(1, int(x0 * scale_factor) - current_char_pos)` spaces, with
`current_char_pos` the running rendered length. -/
def renderLine (scale_factor : ℚ) (line_words : List Word) : String :=
  line_words.foldl (fun line_str word =>
    let target_pos := pyTrunc (word.x0 * scale_factor)
    let padding := max 1 (target_pos - (line_str.length : ℤ))
    line_str ++ String.mk (List.replicate padding.toNat ' ') ++ word.text) ""

/-- `PDFProcessor._generate_text_grid`: group words into tolerance buckets,
render buckets by ascending key, words within a line by ascending `x0`
(Python `sorted` is stable, as is `mergeSort`). -/
def generate_text_grid (tolerance scale_factor : ℚ) (words : List Word) :
    String :=
  if words.isEmpty then ""
  else
    let lines := words.foldl (addWordToBuckets tolerance) []
    let sorted_tops := pySorted (fun a b => a ≤ b) (lines.map (·.1))
    pyJoin "\n" (sorted_tops.map (fun top =>
      renderLine scale_factor
        (pySorted (fun a b => a.x0 ≤ b.x0) ((lines.lookup top).getD []))))

/-- Claim-side grouping step: a word joins the first bucket (in creation
order) whose representative `top` — the `top` of the bucket's first
word — is within the tolerance; otherwise it starts a new bucket at the
end. -/
def specAddWord (tolerance : ℚ) (buckets : List (ℚ × List Word))
    (word : Word) : List (ℚ × List Word) :=
  match buckets.find? (fun b => decide (|b.1 - word.top| ≤ tolerance)) with
  | some b => bucketAppend buckets b.1 word
  | none => buckets ++ [(word.top, [word])]

/-- Claim-side line rendering: each word's text starts at character column
`max(current line length + 1, int(x0 * scale_factor))`, reached by
padding with spaces. -/
def specRenderLine (scale_factor : ℚ) (line_words : List Word) : String :=
  line_words.foldl (fun line_str word =>
    let start_col : ℤ :=
      max ((line_str.length : ℤ) + 1) (pyTrunc (word.x0 * scale_factor))
    line_str ++ String.mk (List.replicate (start_col - line_str.length).toNat ' ')
      ++ word.text) ""

/-- Claim-side text grid: buckets built by `specAddWord`, rendered sorted
by representative top, with words ordered by ascending `x0` and placed by
the `max(len + 1, int(x0 * scale))` column rule. -/
def specTextGrid (tolerance scale_factor : ℚ) (words : List Word) : String :=
  let buckets := words.foldl (specAddWord tolerance) []
  pyJoin "\n" ((pySorted (fun a b => a ≤ b) (buckets.map (·.1))).map
    (fun top => specRenderLine scale_factor
      (pySorted (fun a b => a.x0 ≤ b.x0) ((buckets.lookup top).getD []))))

/-! ## Import service (`import_service.py`) over the in-memory repository
(`repositories/memory.py`)

`hashlib.sha256(json.dumps(payload, sort_keys=True))` is an external pure
digest; it enters the embedding as an explicit hash-function argument.
`datetime.now().strftime(...)` enters as an explicit `import_id`
argument.  The stored idempotent response is kept structurally (the
`model_dump` / reconstruction round-trip of the source is the
identity). -/

/-- `repositories.base.ProductRecord`. -/
structure ProductRecord where
  product_id : String
  barcode : Option String
  name : String
  normalized_name : String
  supplier : Option String
deriving DecidableEq

/-- `repositories.base.UpsertProductInput`. -/
structure UpsertProductInput where
  name : String
  barcode : Option String
  supplier : Option String
  price : ℚ
  price_50 : ℚ
  price_70 : ℚ
  price_100 : ℚ
  markup : ℕ
deriving DecidableEq

/-- A stock movement record (the dict stored by
`add_stock_movement_in`; its `"type"` key is always `"IN"`). -/
structure StockMovement where
  product_id : String
  quantity : PFloat
  source : String
  invoice_number : Option String
  movement_type : String
deriving DecidableEq

/-- `models.InvoiceMeta`. -/
structure InvoiceMeta where
  supplier : Option String
  invoice_number : Option String
  date : Option String
deriving DecidableEq

/-- `models.InvoicePreviewRow` (numeric fields as modelled floats; the
API-boundary pydantic validation is upstream of the service). -/
structure PreviewRow where
  row_id : String
  name : String
  barcode : Option String
  quantity : PFloat
  line_total_lei : PFloat
  weight_kg : Option PFloat
deriving DecidableEq

/-- `models.InvoiceImportRequest`. -/
structure InvoiceImportRequest where
  invoice_meta : InvoiceMeta
  rows : List PreviewRow
deriving DecidableEq

/-- `models.ImportRowResult` (string literals model the `Literal` status
and strategy types). -/
structure ImportRowResult where
  row_id : String
  status : String
  action : Option String
  match_strategy : Option String
  product_id : Option String
  stock_movement_id : Option String
  computed : Option PricingResult
  messages : List String
  warnings : List String
deriving DecidableEq

/-- `models.ImportSummary`. -/
structure ImportSummary where
  created_count : ℕ
  updated_count : ℕ
  stock_in_count : ℕ
  error_count : ℕ
deriving DecidableEq

/-- `models.InvoiceImportResponse`. -/
structure InvoiceImportResponse where
  import_id : String
  import_status : String
  rows : List ImportRowResult
  summary : ImportSummary
deriving DecidableEq

/-- `exceptions.ContractError`. -/
structure ContractError where
  code : String
  message : String
  status_code : ℕ
deriving DecidableEq

/-- `repositories.memory.InMemoryInvoiceImportRepository` state (dicts as
insertion-ordered association lists). -/
structure RepoState where
  products : List (String × ProductRecord)
  products_by_barcode : List (String × String)
  movements : List (String × StockMovement)
  idempotency : List (String × (String × InvoiceImportResponse))
  product_seq : ℕ
  movement_seq : ℕ
deriving DecidableEq

/-- Generic dict item assignment (replace in place, else append). -/
def assocSet {ν : Type} : List (String × ν) → String → ν → List (String × ν)
  | [], k, v => [(k, v)]
  | (k', v') :: rest, k, v =>
    if k' = k then (k', v) :: rest else (k', v') :: assocSet rest k v

/-- Python substring membership `pat in s` on character lists. -/
def startsWithChars : List Char → List Char → Bool
  | [], _ => true
  | _ :: _, [] => false
  | p :: ps, c :: cs => p == c && startsWithChars ps cs

/-- Python substring membership `pat in s`. -/
def containsSub (pat : String) (s : String) : Bool :=
  let rec go : List Char → Bool
    | [] => startsWithChars pat.toList []
    | c :: cs => startsWithChars pat.toList (c :: cs) || go cs
  go s.toList

/-- `import_service.normalize_name`: lowercase, trim, collapse every run
of characters outside `[a-z0-9]` to a single space (the regex sub to a
space followed by `split`/`join` — replacing each such character by a
space yields the same result after the split/join collapse). -/
def normalize_name (value : String) : String :=
  let lowered := pyStrip (pyLower value)
  let subbed := String.mk (lowered.toList.map (fun c =>
    if ('a' ≤ c ∧ c ≤ 'z') ∨ c.isDigit then c else ' '))
  pyJoin " " ((pySplitChar ' ' subbed).filter (fun s => s ≠ ""))

/-- `InvoiceImportService._map_pricing_error`: map a pricing `ValueError`
message to a machine-readable code by substring search. -/
def map_pricing_error (text : String) : String :=
  if containsSub "quantity" text then "INVALID_QUANTITY"
  else if containsSub "line_total_lei" text then "INVALID_LINE_TOTAL"
  else if containsSub "weight_kg" text then "INVALID_WEIGHT"
  else if containsSub "fx_lei_to_eur" text then "INVALID_FX_RATE"
  else if containsSub "transport_rate_per_kg" text then "INVALID_TRANSPORT_RATE"
  else "COMPUTATION_ERROR"

/-- `_LIQUID_HINT_PATTERN` matched at one position:
`(?<!\w)\d+(?:[.,]\d+)?\s*(l|ml)\b` (IGNORECASE). -/
def matchLiquidAt (l : List Char) : Option Unit :=
  match matchNumber l with
  | none => none
  | some (_, r1) =>
    let s1 := r1.takeWhile pySpaceChar
    match matchUnitAlts liquidUnits (r1.drop s1.length) with
    | none => none
    | some _ => some ()

/-- `InvoiceImportService._row_warnings`. -/
def row_warnings (name : String) : List String :=
  if (regexSearch matchLiquidAt name).isSome then ["LIQUID_DENSITY_ASSUMPTION"]
  else []

/-- `InMemoryInvoiceImportRepository.find_product_by_barcode`. -/
def find_product_by_barcode (st : RepoState) (barcode : String) :
    Option ProductRecord :=
  match st.products_by_barcode.lookup barcode with
  | none => none
  | some product_id =>
    if product_id = "" then none else st.products.lookup product_id

/-- `InMemoryInvoiceImportRepository.find_products_by_normalized_name`
(dict values in insertion order). -/
def find_products_by_normalized_name (st : RepoState) (normalized_name : String) :
    List ProductRecord :=
  (st.products.map (·.2)).filter (fun p => p.normalized_name = normalized_name)

/-- `InMemoryInvoiceImportRepository.create_product`. -/
def create_product (st : RepoState) (data : UpsertProductInput) :
    ProductRecord × RepoState :=
  let product_id := "prod_" ++ pyNatRepr st.product_seq
  let product : ProductRecord :=
    ⟨product_id, data.barcode, data.name, normalize_name data.name, data.supplier⟩
  (product,
   { st with
     product_seq := st.product_seq + 1
     products := assocSet st.products product_id product
     products_by_barcode :=
       match data.barcode with
       | some b =>
         if b ≠ "" then assocSet st.products_by_barcode b product_id
         else st.products_by_barcode
       | none => st.products_by_barcode })

/-- `InMemoryInvoiceImportRepository.update_product`.  (The source raises
`KeyError` for an unknown id; `import_rows` only calls it with the id of
a product just found in the repository, so that branch is unreachable
from the embedded service and the update is modelled directly.) -/
def update_product (st : RepoState) (product_id : String)
    (data : UpsertProductInput) : ProductRecord × RepoState :=
  let product : ProductRecord :=
    ⟨product_id, data.barcode, data.name, normalize_name data.name, data.supplier⟩
  (product,
   { st with
     products := assocSet st.products product_id product
     products_by_barcode :=
       match data.barcode with
       | some b =>
         if b ≠ "" then assocSet st.products_by_barcode b product_id
         else st.products_by_barcode
       | none => st.products_by_barcode })

/-- `InMemoryInvoiceImportRepository.add_stock_movement_in`. -/
def add_stock_movement_in (st : RepoState) (product_id : String)
    (quantity : PFloat) (source : String) (invoice_number : Option String) :
    String × RepoState :=
  let movement_id := "mov_" ++ pyNatRepr st.movement_seq
  (movement_id,
   { st with
     movement_seq := st.movement_seq + 1
     movements := assocSet st.movements movement_id
       ⟨product_id, quantity, source, invoice_number, "IN"⟩ })

/-- `import_service.MatchResolution`. -/
structure MatchResolution where
  product : Option ProductRecord
  strategy : Option String
  error_code : Option String
deriving DecidableEq

/-- `InvoiceImportService._find_match` (with the repository present; the
repository-`None` case of the method is only reachable when `import_rows`
has already failed with `IMPORT_DISABLED`). -/
def find_match (st : RepoState) (barcode : Option String) (name : String) :
    MatchResolution :=
  let by_barcode : Option ProductRecord :=
    match barcode with
    | some b => if b ≠ "" then find_product_by_barcode st b else none
    | none => none
  match by_barcode with
  | some matched => ⟨some matched, some "barcode", none⟩
  | none =>
    match find_products_by_normalized_name st (normalize_name name) with
    | [c] => ⟨some c, some "normalized_name", none⟩
    | _ :: _ :: _ => ⟨none, none, some "AMBIGUOUS_NAME_MATCH"⟩
    | [] => ⟨none, none, none⟩

/-- One iteration of the `import_rows` row loop, carrying
(results, created, updated, stock-in, error counts, repository state). -/
def importRowStep (fx_lei_to_eur transport_rate_per_kg : PFloat)
    (meta : InvoiceMeta)
    (acc : List ImportRowResult × ℕ × ℕ × ℕ × ℕ × RepoState)
    (row : PreviewRow) : List ImportRowResult × ℕ × ℕ × ℕ × ℕ × RepoState :=
  let (results, created, updated, stock_in, errors, st) := acc
  match row.weight_kg with
  | none =>
    (results ++ [⟨row.row_id, "error", none, none, none, none, none,
      ["MISSING_WEIGHT"], row_warnings row.name⟩],
     created, updated, stock_in, errors + 1, st)
  | some weight_kg =>
    match compute_pricing row.line_total_lei row.quantity weight_kg
        fx_lei_to_eur transport_rate_per_kg with
    | .error exc =>
      (results ++ [⟨row.row_id, "error", none, none, none, none, none,
        [map_pricing_error exc], row_warnings row.name⟩],
       created, updated, stock_in, errors + 1, st)
    | .ok pricing =>
      let m := find_match st row.barcode row.name
      match m.error_code with
      | some error_code =>
        (results ++ [⟨row.row_id, "error", none, none, none, none,
          some pricing, [error_code], row_warnings row.name⟩],
         created, updated, stock_in, errors + 1, st)
      | none =>
        let upsert_data : UpsertProductInput :=
          ⟨row.name, row.barcode, meta.supplier, pricing.base_price_eur,
           pricing.price_50, pricing.price_70, pricing.price_100, 70⟩
        match m.product with
        | none =>
          let (product, st1) := create_product st upsert_data
          let (movement_id, st2) := add_stock_movement_in st1 product.product_id
            row.quantity "invoice_import" meta.invoice_number
          (results ++ [⟨row.row_id, "ok", some "created", some "created",
            some product.product_id, some movement_id, some pricing, [],
            row_warnings row.name⟩],
           created + 1, updated, stock_in + 1, errors, st2)
        | some matched =>
          let (product, st1) := update_product st matched.product_id upsert_data
          let (movement_id, st2) := add_stock_movement_in st1 product.product_id
            row.quantity "invoice_import" meta.invoice_number
          (results ++ [⟨row.row_id, "ok", some "updated",
            some (m.strategy.getD "normalized_name"),
            some product.product_id, some movement_id, some pricing, [],
            row_warnings row.name⟩],
           created, updated + 1, stock_in + 1, errors, st2)

/-- `InvoiceImportService.import_rows`.  Returns the outcome together with
the repository state after the call. -/
def import_rows (hashFn : InvoiceImportRequest → String) (import_id : String)
    (fx_lei_to_eur transport_rate_per_kg : PFloat) (repo : Option RepoState)
    (payload : InvoiceImportRequest) (idempotency_key : String) :
    Except ContractError InvoiceImportResponse × Option RepoState :=
  match repo with
  | none =>
    (.error ⟨"IMPORT_DISABLED", "Import endpoint is disabled in MVP simple mode",
      501⟩, none)
  | some st =>
    if pyStrip idempotency_key = "" then
      (.error ⟨"INVALID_PAYLOAD", "Idempotency key is required", 400⟩, some st)
    else
      let request_hash := hashFn payload
      match st.idempotency.lookup idempotency_key with
      | some (existing_hash, existing_payload) =>
        if existing_hash ≠ request_hash then
          (.error ⟨"IDEMPOTENCY_CONFLICT",
            "Idempotency key already used with different payload", 409⟩, some st)
        else (.ok existing_payload, some st)
      | none =>
        let out := payload.rows.foldl
          (importRowStep fx_lei_to_eur transport_rate_per_kg payload.invoice_meta)
          ([], 0, 0, 0, 0, st)
        let (results, created, updated, stock_in, errors, st1) := out
        let import_status :=
          if errors = results.length then "failed"
          else if 0 < errors then "partial_failed"
          else "completed"
        let response : InvoiceImportResponse :=
          ⟨import_id, import_status, results, ⟨created, updated, stock_in, errors⟩⟩
        let idem2 := assocSet st1.idempotency idempotency_key (request_hash, response)
        (.ok response, some { st1 with idempotency := idem2 })

/-! ## Theorems -/

/-- C1: on every valid input (finite, `line_total_lei ≥ 0`, the other four
positive), `compute_pricing` returns `round4 ((line_total_lei / quantity)
/ fx)` as the base price, `round4 (weight * rate)` as transport, and the
three tier prices as `round4` of the unrounded landed sum times 1.5 / 1.7
/ 2.0 — each output rounded independently, never by rounding the landed
value once. -/
theorem claim_C1 (ltl q w fx tr : ℚ) (h1 : 0 ≤ ltl) (h2 : 0 < q) (h3 : 0 < w)
    (h4 : 0 < fx) (h5 : 0 < tr) :
    compute_pricing (.fin ltl) (.fin q) (.fin w) (.fin fx) (.fin tr) =
      .ok { base_price_eur := round4 (ltl / q / fx)
            transport_eur := round4 (w * tr)
            price_50 := round4 ((ltl / q / fx + w * tr) * 1.5)
            price_70 := round4 ((ltl / q / fx + w * tr) * 1.7)
            price_100 := round4 ((ltl / q / fx + w * tr) * 2.0) } := by
  simp [compute_pricing, PFloat.isFinite, PFloat.toRat, not_le.mpr h2,
    not_lt.mpr h1, not_le.mpr h3, not_le.mpr h4, not_le.mpr h5]

unseal Rat.add Rat.mul Rat.inv Rat.ofScientific Rat.sub in
/-- C1 witness: the spec's numeric example, with every hypothesis
discharged at the concrete input — `compute_pricing(200, 10, 0.2, 19.5,
1.5)` yields exactly (1.0256, 0.3, 1.9885, 2.2536, 2.6513). -/
theorem claim_C1_witness :
    (0 : ℚ) ≤ 200 ∧ (0 : ℚ) < 10 ∧ (0 : ℚ) < 0.2 ∧ (0 : ℚ) < 19.5 ∧
      (0 : ℚ) < 1.5 ∧
    compute_pricing (.fin 200) (.fin 10) (.fin 0.2) (.fin 19.5) (.fin 1.5) =
      .ok { base_price_eur := 1.0256, transport_eur := 0.3, price_50 := 1.9885,
            price_70 := 2.2536, price_100 := 2.6513 } :=
  ⟨by norm_num, by norm_num, by norm_num, by norm_num, by norm_num, by
    rw [claim_C1 200 10 0.2 19.5 1.5 (by norm_num) (by norm_num) (by norm_num)
      (by norm_num) (by norm_num)]
    decide⟩

unseal Rat.add Rat.mul Rat.inv Rat.ofScientific Rat.sub in
/-- C2: `compute_pricing` errors exactly when a numeric precondition fails
(non-finite input, `quantity ≤ 0`, `line_total_lei < 0`, `weight_kg ≤ 0`,
`fx_lei_to_eur ≤ 0`, `transport_rate_per_kg ≤ 0`); with the other inputs
at the valid baseline (200, 10, 0.2, 19.5, 1.5), each violation yields an
error message containing the offending field's name, and the ten messages
are pairwise distinct. -/
theorem claim_C2 :
    (∀ a b c d e : PFloat,
      (∃ r, compute_pricing a b c d e = .ok r) ↔ validPricingInputs a b c d e) ∧
    (compute_pricing .nan (.fin 10) (.fin 0.2) (.fin 19.5) (.fin 1.5) =
        .error "line_total_lei must be finite" ∧
      containsSub "line_total_lei" "line_total_lei must be finite" = true) ∧
    (compute_pricing (.fin 200) .inf (.fin 0.2) (.fin 19.5) (.fin 1.5) =
        .error "quantity must be finite" ∧
      containsSub "quantity" "quantity must be finite" = true) ∧
    (compute_pricing (.fin 200) (.fin 10) .ninf (.fin 19.5) (.fin 1.5) =
        .error "weight_kg must be finite" ∧
      containsSub "weight_kg" "weight_kg must be finite" = true) ∧
    (compute_pricing (.fin 200) (.fin 10) (.fin 0.2) .nan (.fin 1.5) =
        .error "fx_lei_to_eur must be finite" ∧
      containsSub "fx_lei_to_eur" "fx_lei_to_eur must be finite" = true) ∧
    (compute_pricing (.fin 200) (.fin 10) (.fin 0.2) (.fin 19.5) .nan =
        .error "transport_rate_per_kg must be finite" ∧
      containsSub "transport_rate_per_kg" "transport_rate_per_kg must be finite" =
        true) ∧
    (compute_pricing (.fin 200) (.fin 0) (.fin 0.2) (.fin 19.5) (.fin 1.5) =
        .error "quantity must be positive" ∧
      containsSub "quantity" "quantity must be positive" = true) ∧
    (compute_pricing (.fin (-1)) (.fin 10) (.fin 0.2) (.fin 19.5) (.fin 1.5) =
        .error "line_total_lei cannot be negative" ∧
      containsSub "line_total_lei" "line_total_lei cannot be negative" = true) ∧
    (compute_pricing (.fin 200) (.fin 10) (.fin 0) (.fin 19.5) (.fin 1.5) =
        .error "weight_kg must be positive" ∧
      containsSub "weight_kg" "weight_kg must be positive" = true) ∧
    (compute_pricing (.fin 200) (.fin 10) (.fin 0.2) (.fin 0) (.fin 1.5) =
        .error "fx_lei_to_eur must be positive" ∧
      containsSub "fx_lei_to_eur" "fx_lei_to_eur must be positive" = true) ∧
    (compute_pricing (.fin 200) (.fin 10) (.fin 0.2) (.fin 19.5) (.fin 0) =
        .error "transport_rate_per_kg must be positive" ∧
      containsSub "transport_rate_per_kg" "transport_rate_per_kg must be positive" =
        true) ∧
    List.Nodup ["line_total_lei must be finite", "quantity must be finite",
      "weight_kg must be finite", "fx_lei_to_eur must be finite",
      "transport_rate_per_kg must be finite", "quantity must be positive",
      "line_total_lei cannot be negative", "weight_kg must be positive",
      "fx_lei_to_eur must be positive", "transport_rate_per_kg must be positive"] := by
  refine ⟨?_, by decide, by decide, by decide, by decide, by decide, by decide,
    by decide, by decide, by decide, by decide, by decide⟩
  intro a b c d e
  constructor
  · rintro ⟨r, h⟩
    rw [compute_pricing] at h
    by_cases h1 : a.isFinite = true
    case neg => rw [if_pos (by simpa using h1)] at h; exact absurd h (by simp)
    rw [if_neg (by simpa using h1)] at h
    by_cases h2 : b.isFinite = true
    case neg => rw [if_pos (by simpa using h2)] at h; exact absurd h (by simp)
    rw [if_neg (by simpa using h2)] at h
    by_cases h3 : c.isFinite = true
    case neg => rw [if_pos (by simpa using h3)] at h; exact absurd h (by simp)
    rw [if_neg (by simpa using h3)] at h
    by_cases h4 : d.isFinite = true
    case neg => rw [if_pos (by simpa using h4)] at h; exact absurd h (by simp)
    rw [if_neg (by simpa using h4)] at h
    by_cases h5 : e.isFinite = true
    case neg => rw [if_pos (by simpa using h5)] at h; exact absurd h (by simp)
    rw [if_neg (by simpa using h5)] at h
    by_cases h6 : b.toRat ≤ 0
    case pos => rw [if_pos h6] at h; exact absurd h (by simp)
    rw [if_neg h6] at h
    by_cases h7 : a.toRat < 0
    case pos => rw [if_pos h7] at h; exact absurd h (by simp)
    rw [if_neg h7] at h
    by_cases h8 : c.toRat ≤ 0
    case pos => rw [if_pos h8] at h; exact absurd h (by simp)
    rw [if_neg h8] at h
    by_cases h9 : d.toRat ≤ 0
    case pos => rw [if_pos h9] at h; exact absurd h (by simp)
    rw [if_neg h9] at h
    by_cases h10 : e.toRat ≤ 0
    case pos => rw [if_pos h10] at h; exact absurd h (by simp)
    exact ⟨h1, h2, h3, h4, h5, not_le.mp h6, not_lt.mp h7, not_le.mp h8,
      not_le.mp h9, not_le.mp h10⟩
  · rintro ⟨f1, f2, f3, f4, f5, p1, p2, p3, p4, p5⟩
    rw [compute_pricing, if_neg (not_not_intro f1), if_neg (not_not_intro f2),
      if_neg (not_not_intro f3), if_neg (not_not_intro f4),
      if_neg (not_not_intro f5), if_neg (not_le.mpr p1), if_neg (not_lt.mpr p2),
      if_neg (not_le.mpr p3), if_neg (not_le.mpr p4), if_neg (not_le.mpr p5)]
    exact ⟨_, rfl⟩

unseal Rat.add Rat.mul Rat.inv Rat.ofScientific Rat.sub in
/-- C2 witness: the characterisation applied at the valid baseline — the
baseline satisfies the precondition and `compute_pricing` succeeds on
it. -/
theorem claim_C2_witness :
    validPricingInputs (.fin 200) (.fin 10) (.fin 0.2) (.fin 19.5) (.fin 1.5) ∧
    ∃ r, compute_pricing (.fin 200) (.fin 10) (.fin 0.2) (.fin 19.5) (.fin 1.5) =
      .ok r :=
  ⟨by decide, (claim_C2.1 (.fin 200) (.fin 10) (.fin 0.2) (.fin 19.5)
    (.fin 1.5)).mpr (by decide)⟩

/-- C4: `normalize_kg_weighed_rows` rewrites exactly the rows whose
unit-of-measure tag, stripped and uppercased, equals `"KG"` — moving the
pre-call quantity into `weight_kg_candidate`, setting quantity to 1.0 and
unit price to the row's total price, and clearing `size_token` /
`parse_confidence` — and leaves every other row completely unchanged; row
count is preserved, and the spec's KG example row (quantity 0.878, unit
price 149.92, total price 150.04) normalizes as stated. -/
theorem claim_C4 :
    (∀ (inv : InvoiceData) (i : ℕ) (p : Product), inv.products[i]? = some p →
      (pyUpper (pyStrip (p.uom.getD "")) = "KG" →
        (normalize_kg_weighed_rows inv).products[i]? =
          some { p with
                 weight_kg_candidate := some p.quantity
                 quantity := 1
                 unit_price := p.total_price
                 size_token := none
                 parse_confidence := none }) ∧
      (pyUpper (pyStrip (p.uom.getD "")) ≠ "KG" →
        (normalize_kg_weighed_rows inv).products[i]? = some p)) ∧
    (∀ inv : InvoiceData,
      (normalize_kg_weighed_rows inv).products.length = inv.products.length) ∧
    normalize_kg_weighed_rows
      ⟨some "X", some "1", some "24-02-2026", 150.04, "MDL",
       [⟨some "2843670008789", "SUNCA DE VITA ROGOB 1 KG", some "KG",
         0.878, 149.92, 150.04, 0.9, none, none, none, none⟩]⟩ =
      ⟨some "X", some "1", some "24-02-2026", 150.04, "MDL",
       [⟨some "2843670008789", "SUNCA DE VITA ROGOB 1 KG", some "KG",
         1, 150.04, 150.04, 0.9, none, some 0.878, none, none⟩]⟩ := by
  refine ⟨?_, ?_, by rfl⟩
  · intro inv i p hp
    constructor
    · intro hc
      simp [normalize_kg_weighed_rows, List.getElem?_map, hp, kgRowRewrite, hc]
    · intro hc
      simp [normalize_kg_weighed_rows, List.getElem?_map, hp, kgRowRewrite, hc]
  · intro inv
    simp [normalize_kg_weighed_rows]

/-- C4 witness: the per-row characterisation applied to the concrete KG
row of the spec example (index 0), with both hypotheses discharged
there. -/
theorem claim_C4_witness :
    ((⟨some "X", some "1", some "24-02-2026", 150.04, "MDL",
       [⟨some "2843670008789", "SUNCA DE VITA ROGOB 1 KG", some "KG",
         0.878, 149.92, 150.04, 0.9, none, none, none, none⟩]⟩ :
       InvoiceData).products[0]? =
      some ⟨some "2843670008789", "SUNCA DE VITA ROGOB 1 KG", some "KG",
        0.878, 149.92, 150.04, 0.9, none, none, none, none⟩) ∧
    pyUpper (pyStrip ((some "KG" : Option String).getD "")) = "KG" ∧
    (normalize_kg_weighed_rows
      ⟨some "X", some "1", some "24-02-2026", 150.04, "MDL",
       [⟨some "2843670008789", "SUNCA DE VITA ROGOB 1 KG", some "KG",
         0.878, 149.92, 150.04, 0.9, none, none, none, none⟩]⟩).products[0]? =
      some ⟨some "2843670008789", "SUNCA DE VITA ROGOB 1 KG", some "KG",
        1, 150.04, 150.04, 0.9, none, some 0.878, none, none⟩ :=
  ⟨rfl, rfl,
   (claim_C4.1
     ⟨some "X", some "1", some "24-02-2026", 150.04, "MDL",
      [⟨some "2843670008789", "SUNCA DE VITA ROGOB 1 KG", some "KG",
        0.878, 149.92, 150.04, 0.9, none, none, none, none⟩]⟩ 0
     ⟨some "2843670008789", "SUNCA DE VITA ROGOB 1 KG", some "KG",
       0.878, 149.92, 150.04, 0.9, none, none, none, none⟩ rfl).1 rfl⟩

/-- C9: with a non-blank idempotency key already stored in the repository,
`import_rows` replays the stored response without any repository write
when the stored request hash equals the incoming payload's hash, and
raises the 409 `IDEMPOTENCY_CONFLICT` contract error with no repository
mutation when the hashes differ. -/
theorem claim_C9 (hashFn : InvoiceImportRequest → String) (import_id : String)
    (fx tr : PFloat) (st : RepoState) (payload : InvoiceImportRequest)
    (key : String) (stored_hash : String) (stored : InvoiceImportResponse)
    (hkey : pyStrip key ≠ "")
    (hstored : st.idempotency.lookup key = some (stored_hash, stored)) :
    (stored_hash = hashFn payload →
      import_rows hashFn import_id fx tr (some st) payload key =
        (.ok stored, some st)) ∧
    (stored_hash ≠ hashFn payload →
      import_rows hashFn import_id fx tr (some st) payload key =
        (.error ⟨"IDEMPOTENCY_CONFLICT",
          "Idempotency key already used with different payload", 409⟩, some st)) := by
  constructor
  · intro heq
    simp [import_rows, hkey, hstored, heq]
  · intro hne
    simp [import_rows, hkey, hstored, hne]

/-- C9 witness: both branches of the idempotency guard exercised on a
concrete one-entry repository, with the hypotheses discharged there. -/
theorem claim_C9_witness :
    pyStrip "key" ≠ "" ∧
    (RepoState.idempotency ⟨[], [], [], [("key",
        ("h1", ⟨"imp_x", "completed", [], ⟨0, 0, 0, 0⟩⟩))], 1, 1⟩).lookup "key" =
      some ("h1", ⟨"imp_x", "completed", [], ⟨0, 0, 0, 0⟩⟩) ∧
    import_rows (fun _ => "h1") "imp_y" (.fin 19.5) (.fin 1.5)
      (some ⟨[], [], [], [("key", ("h1", ⟨"imp_x", "completed", [], ⟨0, 0, 0, 0⟩⟩))],
        1, 1⟩) ⟨⟨none, none, none⟩, []⟩ "key" =
      (.ok ⟨"imp_x", "completed", [], ⟨0, 0, 0, 0⟩⟩,
       some ⟨[], [], [], [("key", ("h1", ⟨"imp_x", "completed", [], ⟨0, 0, 0, 0⟩⟩))],
         1, 1⟩) ∧
    import_rows (fun _ => "h2") "imp_y" (.fin 19.5) (.fin 1.5)
      (some ⟨[], [], [], [("key", ("h1", ⟨"imp_x", "completed", [], ⟨0, 0, 0, 0⟩⟩))],
        1, 1⟩) ⟨⟨none, none, none⟩, []⟩ "key" =
      (.error ⟨"IDEMPOTENCY_CONFLICT",
        "Idempotency key already used with different payload", 409⟩,
       some ⟨[], [], [], [("key", ("h1", ⟨"imp_x", "completed", [], ⟨0, 0, 0, 0⟩⟩))],
         1, 1⟩) :=
  ⟨by decide, rfl,
   (claim_C9 (fun _ => "h1") "imp_y" (.fin 19.5) (.fin 1.5)
     ⟨[], [], [], [("key", ("h1", ⟨"imp_x", "completed", [], ⟨0, 0, 0, 0⟩⟩))], 1, 1⟩
     ⟨⟨none, none, none⟩, []⟩ "key" "h1" ⟨"imp_x", "completed", [], ⟨0, 0, 0, 0⟩⟩
     (by decide) rfl).1 rfl,
   (claim_C9 (fun _ => "h2") "imp_y" (.fin 19.5) (.fin 1.5)
     ⟨[], [], [], [("key", ("h1", ⟨"imp_x", "completed", [], ⟨0, 0, 0, 0⟩⟩))], 1, 1⟩
     ⟨⟨none, none, none⟩, []⟩ "key" "h1" ⟨"imp_x", "completed", [], ⟨0, 0, 0, 0⟩⟩
     (by decide) rfl).2 (by decide)⟩

/-- C7: `validate_invoice` accepts exactly when the uppercased currency is
in the configured allow-set; rejection carries a message naming the
rejected code and listing the sorted valid codes and is decided by the
currency alone (independent of the rows); on success the currency is
normalized to uppercase, and any two casing variants of a code are
accepted or rejected together. -/
theorem claim_C7 (cfg : String) (data : InvoiceData) :
    ((∃ out, validate_invoice cfg data = .ok out) ↔
      pyUpper data.currency ∈ get_allowed_currencies cfg) ∧
    (pyUpper data.currency ∉ get_allowed_currencies cfg →
      validate_invoice cfg data = .error ("Invalid currency: " ++ data.currency ++
        ". Valid: " ++ pyJoin ", " (pySorted pyStrLe (get_allowed_currencies cfg)))) ∧
    (∀ out, validate_invoice cfg data = .ok out →
      out.currency = pyUpper data.currency) ∧
    (∀ c₁ c₂ : String, pyUpper c₁ = pyUpper c₂ →
      ((∃ out, validate_invoice cfg { data with currency := c₁ } = .ok out) ↔
        ∃ out, validate_invoice cfg { data with currency := c₂ } = .ok out)) ∧
    (∀ ps : List Product,
      ((∃ out, validate_invoice cfg { data with products := ps } = .ok out) ↔
        ∃ out, validate_invoice cfg data = .ok out)) := by
  refine ⟨?_, ?_, ?_, ?_, ?_⟩
  · by_cases hm : pyUpper data.currency ∈ get_allowed_currencies cfg
    · simp [validate_invoice, hm]
    · simp [validate_invoice, hm]
  · intro hm
    simp [validate_invoice, hm]
  · intro out hout
    by_cases hm : pyUpper data.currency ∈ get_allowed_currencies cfg
    · simp [validate_invoice, hm] at hout
      rw [← hout]
    · simp [validate_invoice, hm] at hout
  · intro c₁ c₂ hc
    by_cases hm : pyUpper c₁ ∈ get_allowed_currencies cfg
    · simp [validate_invoice, hm, hc ▸ hm]
    · simp [validate_invoice, hm, hc ▸ hm]
  · intro ps
    by_cases hm : pyUpper data.currency ∈ get_allowed_currencies cfg
    · simp [validate_invoice, hm]
    · simp [validate_invoice, hm]

unseal Rat.add Rat.mul Rat.inv Rat.ofScientific Rat.sub in
/-- C7 witness: the characterisation applied to the default allow-list
with the lowercase variant `"mdl"` (accepted and normalized to `"MDL"`)
and to the rejected code `"XXX"` with its exact message. -/
theorem claim_C7_witness :
    (∃ out, validate_invoice "EUR,USD,MDL,RUB,RON"
      ⟨some "S", some "1", some "d", 10, "mdl", []⟩ = .ok out) ∧
    (∀ out, validate_invoice "EUR,USD,MDL,RUB,RON"
      ⟨some "S", some "1", some "d", 10, "mdl", []⟩ = .ok out →
      out.currency = pyUpper "mdl") ∧
    validate_invoice "EUR,USD,MDL,RUB,RON"
      ⟨some "S", some "1", some "d", 10, "xxx", []⟩ =
      .error "Invalid currency: xxx. Valid: EUR, MDL, RON, RUB, USD" :=
  ⟨(claim_C7 "EUR,USD,MDL,RUB,RON"
      ⟨some "S", some "1", some "d", 10, "mdl", []⟩).1.mpr (by decide),
   (claim_C7 "EUR,USD,MDL,RUB,RON"
      ⟨some "S", some "1", some "d", 10, "mdl", []⟩).2.2.1,
   by
    have h := (claim_C7 "EUR,USD,MDL,RUB,RON"
      ⟨some "S", some "1", some "d", 10, "xxx", []⟩).2.1 (by decide)
    rw [h]
    rfl⟩

unseal Rat.add Rat.mul Rat.inv Rat.ofScientific Rat.sub in
/-- C6: the extract cache never returns an entry past its expiry (a
returned payload always comes from a stored entry whose expiry is still
in the future); a successful `get` moves the touched key to the
most-recently-used end; a `set` that pushes the count above
`max_entries` (no entries expired, fresh key, cache exactly full) evicts
exactly the least-recently-used front entry; and in the concrete
N+1-insertions scenario with `max_entries = 2`, after `set a; set b;
get a; set c` the surviving keys are exactly `a` and `c` — the `get`
protected `a` and the least-recently-accessed key `b` was evicted. -/
theorem claim_C6 :
    (∀ (α : Type) (st : CacheState α) (now : ℚ) (key : String) (p : α),
      (st.get now key).1 = some p →
      ∃ e, st.entries.lookup key = some e ∧ now < e.expires_at ∧ e.payload = p) ∧
    (∀ (α : Type) (st : CacheState α) (now : ℚ) (key : String)
      (e : ExtractCacheEntry α),
      st.entries.lookup key = some e → now < e.expires_at →
      (st.get now key).2.entries =
        st.entries.eraseP (fun kv => kv.1 == key) ++
          [(key, { e with hit_count := e.hit_count + 1 })]) ∧
    (∀ (α : Type) (st : CacheState α) (now : ℚ) (key : String) (payload : α),
      (∀ kv ∈ st.entries, now < kv.2.expires_at) →
      st.entries.lookup key = none →
      st.entries.length = st.max_entries → 1 ≤ st.max_entries →
      (st.set now key payload).entries =
        st.entries.tail ++ [(key, ⟨payload, now + st.ttl_sec, 0⟩)]) ∧
    ((((((⟨100, 2, []⟩ : CacheState ℕ).set 0 "a" 1).set 0 "b" 2).get 0
        "a").2.set 0 "c" 3).entries.map (·.1) = ["a", "c"]) := by
  refine ⟨?_, ?_, ?_, by decide⟩
  · intro α st now key p h
    rw [CacheState.get] at h
    cases hl : st.entries.lookup key with
    | none => rw [hl] at h; cases h
    | some e =>
      rw [hl] at h
      by_cases hexp : e.expires_at ≤ now
      · simp [hexp] at h
      · simp [hexp] at h
        exact ⟨e, rfl, not_le.mp hexp, h⟩
  · intro α st now key e hl hexp
    rw [CacheState.get, hl]
    simp [not_le.mpr hexp]
  · intro α st now key payload hfresh hnone hlen hmax
    rw [CacheState.set]
    have hprune : pruneExpired now st.entries = st.entries :=
      List.filter_eq_self.mpr (fun kv hkv => by
        simpa using hfresh kv hkv)
    have herase : st.entries.eraseP (fun kv => kv.1 == key) = st.entries := by
      refine List.eraseP_of_forall_not (fun kv hkv => ?_)
      have hne := List.lookup_eq_none_iff.mp hnone kv hkv
      simp only [bne_iff_ne, ne_eq] at hne
      simp [beq_iff_eq]
      exact fun hk => hne hk.symm
    rw [hprune, herase, capTrim]
    have hlen2 : (st.entries ++ [(key, (⟨payload, now + st.ttl_sec, 0⟩ :
        ExtractCacheEntry α))]).length = st.max_entries + 1 := by
      simp [hlen]
    rw [hlen2]
    have : st.max_entries + 1 - st.max_entries = 1 := by omega
    rw [this, List.drop_one,
      List.tail_append_of_ne_nil (by
        intro hnil
        rw [hnil] at hlen
        simp at hlen
        omega)]

unseal Rat.add Rat.mul Rat.inv Rat.ofScientific Rat.sub in
/-- C6 witness: the expiry-safety clause applied to a concrete one-entry
cache (entry expiring at time 5, read at time 0), with the hypothesis
discharged there. -/
theorem claim_C6_witness :
    (((⟨100, 2, [("k", (⟨7, 5, 0⟩ : ExtractCacheEntry ℕ))]⟩ :
        CacheState ℕ).get 0 "k").1 = some 7) ∧
    ∃ e, ([("k", (⟨7, 5, 0⟩ : ExtractCacheEntry ℕ))] :
        List (String × ExtractCacheEntry ℕ)).lookup "k" = some e ∧
      (0 : ℚ) < e.expires_at ∧ e.payload = 7 :=
  ⟨by decide,
   claim_C6.1 ℕ ⟨100, 2, [("k", ⟨7, 5, 0⟩)]⟩ 0 "k" 7 (by decide)⟩

/-- The value stored by `objSet` is found at its key. -/
theorem lookup_objSet_self (l : List (String × JVal)) (k : String) (v : JVal) :
    (objSet l k v).lookup k = some v := by
  induction l with
  | nil => simp [objSet]
  | cons kv rest ih =>
    obtain ⟨k', v'⟩ := kv
    by_cases hk : k' = k
    · simp [objSet, hk]
    · have hbeq : (k == k') = false := beq_eq_false_iff_ne.mpr (Ne.symm hk)
      simp [objSet, hk, List.lookup_cons, hbeq, ih]

/-- `objSet` leaves every other key's binding unchanged. -/
theorem lookup_objSet_ne (l : List (String × JVal)) (k k' : String) (v : JVal)
    (h : k' ≠ k) : (objSet l k v).lookup k' = l.lookup k' := by
  have hbeq : (k' == k) = false := beq_eq_false_iff_ne.mpr h
  induction l with
  | nil => simp [objSet, List.lookup_cons, hbeq]
  | cons kv rest ih =>
    obtain ⟨k₀, v₀⟩ := kv
    by_cases hk : k₀ = k
    · subst hk
      simp [objSet, List.lookup_cons, hbeq]
    · simp [objSet, hk, List.lookup_cons, ih]

/-- `stringifyKey` leaves every other key's binding unchanged. -/
theorem lookup_stringifyKey_ne (l : List (String × JVal)) (k k' : String)
    (h : k' ≠ k) : (stringifyKey l k).lookup k' = l.lookup k' := by
  rw [stringifyKey]
  cases hl : l.lookup k with
  | none => rfl
  | some v => cases v <;> simp [lookup_objSet_ne _ _ _ _ h]

/-- The `total_amount` step leaves every other key's binding unchanged. -/
theorem lookup_totalAmountStep_ne (l : List (String × JVal)) (k' : String)
    (h : k' ≠ "total_amount") :
    (totalAmountStep l).lookup k' = l.lookup k' := by
  rw [totalAmountStep]
  cases pyToFloat (pyGetD l "total_amount") with
  | none => rfl
  | some t => exact lookup_objSet_ne _ _ _ _ h

/-- The `currency` step leaves every other key's binding unchanged. -/
theorem lookup_currencyStep_ne (l : List (String × JVal)) (k' : String)
    (h : k' ≠ "currency") : (currencyStep l).lookup k' = l.lookup k' := by
  rw [currencyStep]
  cases hl : l.lookup "currency" with
  | none => exact lookup_objSet_ne _ _ _ _ h
  | some v => cases v <;> exact lookup_objSet_ne _ _ _ _ h

/-- A successful normalization stores exactly the cleaned surviving rows
under the `products` key of the returned payload. -/
theorem normalize_ok_products (fields out : List (String × JVal))
    (h : normalize_invoice_payload (.obj fields) = .ok out) :
    out.lookup "products" =
      some (.arr (((productsRawOf fields).filterMap cleanRow).map .obj)) := by
  rw [normalize_invoice_payload] at h
  by_cases hcond : (productsRawOf fields).countP (fun p => (cleanRow p).isNone) ≠ 0 ∧
      ((productsRawOf fields).filterMap cleanRow).isEmpty
  · rw [if_pos hcond] at h; cases h
  · rw [if_neg hcond] at h
    cases h
    rw [lookup_stringifyKey_ne _ _ _ (by decide),
      lookup_stringifyKey_ne _ _ _ (by decide),
      lookup_stringifyKey_ne _ _ _ (by decide),
      lookup_currencyStep_ne _ _ (by decide),
      lookup_totalAmountStep_ne _ _ (by decide),
      lookup_objSet_self]

/-- C10: a payload whose `products` field is absent, an empty list, or not
a list at all passes normalization without error and yields zero
products; the all-rows-dropped integrity signal is never raised by a
zero-row payload. -/
theorem claim_C10 (fields : List (String × JVal))
    (h : fields.lookup "products" = none ∨
      fields.lookup "products" = some (.arr []) ∨
      ∃ v, fields.lookup "products" = some v ∧ ∀ xs, v ≠ .arr xs) :
    ∃ out, normalize_invoice_payload (.obj fields) = .ok out ∧
      out.lookup "products" = some (.arr []) := by
  have hraw : productsRawOf fields = [] := by
    rw [productsRawOf]
    rcases h with h | h | ⟨v, hv, hne⟩
    · rw [h]
    · rw [h]
    · rw [hv]
      cases v <;> simp_all
  obtain ⟨out, hout⟩ : ∃ out, normalize_invoice_payload (.obj fields) = .ok out := by
    rw [normalize_invoice_payload, hraw]
    exact ⟨_, by rw [if_neg (by simp)]⟩
  refine ⟨out, hout, ?_⟩
  have hprod := normalize_ok_products fields out hout
  rw [hraw] at hprod
  simpa using hprod

/-- C10 witness: the empty payload object (no `products` key) normalizes
without error to an invoice payload with zero products. -/
theorem claim_C10_witness :
    ∃ out, normalize_invoice_payload (.obj []) = .ok out ∧
      out.lookup "products" = some (.arr []) :=
  claim_C10 [] (Or.inl rfl)

/-- A row is kept by `cleanRow` exactly when the claim's survival
predicate holds. -/
theorem cleanRow_isSome (p : JVal) : (cleanRow p).isSome = specRowKept p := by
  cases p with
  | obj f =>
    simp only [cleanRow, specRowKept]
    cases hq : pyToFloat (pyGetD f "quantity") with
    | none => simp
    | some q =>
      cases hu : pyToFloat (pyGetD f "unit_price") with
      | none => simp
      | some up =>
        cases ht : pyToFloat (pyGetD f "total_price") with
        | none => simp
        | some tp =>
          dsimp only
          by_cases hcond : (match f.lookup "name" with
              | some (.str s) => pyStrip s
              | _ => "") = "" ∨ q ≤ 0 ∨ up ≤ 0 ∨ tp < 0
          · rw [if_pos hcond]
            rcases hcond with hname | hval | hval | hval
            · cases hn : f.lookup "name" with
              | none => simp
              | some v => cases v <;> simp_all
            · simp [not_lt.mpr hval]
            · simp [not_lt.mpr hval]
            · simp [not_le.mpr hval]
          · rw [if_neg hcond]
            push_neg at hcond
            obtain ⟨hname, hq', hu', ht'⟩ := hcond
            cases hn : f.lookup "name" with
            | none => simp_all
            | some v =>
              cases v <;> simp_all
  | null => rfl
  | bool b => rfl
  | num q => rfl
  | str s => rfl
  | arr xs => rfl

/-- C5: for a payload with a non-empty `products` array, a row is dropped
exactly when it violates the claim's survival predicate (empty trimmed
name, failed lenient numeric parse, `quantity ≤ 0`, `unit_price ≤ 0`, or
`total_price < 0`); if at least one row survives, normalization returns
the surviving cleaned rows without raising, and if every row is dropped
it raises the dedicated integrity error carrying the dropped-row
count. -/
theorem claim_C5 (fields : List (String × JVal)) (prods : List JVal)
    (hp : fields.lookup "products" = some (.arr prods)) (hne : prods ≠ []) :
    (∀ p, (cleanRow p).isSome = specRowKept p) ∧
    (prods.any specRowKept = true →
      ∃ out, normalize_invoice_payload (.obj fields) = .ok out ∧
        out.lookup "products" =
          some (.arr ((prods.filterMap cleanRow).map .obj))) ∧
    (prods.any specRowKept = false →
      normalize_invoice_payload (.obj fields) =
        .error (.integrityError ("LLM returned " ++ pyNatRepr prods.length ++
          " malformed product rows"))) := by
  have hraw : productsRawOf fields = prods := by rw [productsRawOf, hp]
  refine ⟨cleanRow_isSome, ?_, ?_⟩
  · intro hany
    obtain ⟨out, hout⟩ : ∃ out, normalize_invoice_payload (.obj fields) = .ok out := by
      rw [normalize_invoice_payload, hraw]
      have hno : ¬ (prods.countP (fun p => (cleanRow p).isNone) ≠ 0 ∧
          (prods.filterMap cleanRow).isEmpty = true) := by
        rintro ⟨-, hempty⟩
        obtain ⟨p, hpmem, hkept⟩ := List.any_eq_true.mp hany
        rw [← cleanRow_isSome] at hkept
        obtain ⟨c, hc⟩ := Option.isSome_iff_exists.mp hkept
        have hmem : c ∈ prods.filterMap cleanRow :=
          List.mem_filterMap.mpr ⟨p, hpmem, hc⟩
        rw [List.isEmpty_iff] at hempty
        simp [hempty] at hmem
      exact ⟨_, by rw [if_neg hno]⟩
    refine ⟨out, hout, ?_⟩
    have hprod := normalize_ok_products fields out hout
    rw [hraw] at hprod
    exact hprod
  · intro hnone
    have hall : ∀ p ∈ prods, cleanRow p = none := by
      intro p hpmem
      have := List.any_eq_false.mp hnone p hpmem
      rw [← cleanRow_isSome] at this
      exact Option.not_isSome_iff_eq_none.mp (by simp [this])
    have hempty : prods.filterMap cleanRow = [] :=
      List.filterMap_eq_nil_iff.mpr hall
    have hcount : prods.countP (fun p => (cleanRow p).isNone) = prods.length :=
      List.countP_eq_length.mpr (fun p hpmem => by simp [hall p hpmem])
    rw [normalize_invoice_payload, hraw, if_pos ?_, hcount]
    refine ⟨?_, by simp [hempty]⟩
    rw [hcount]
    intro hlen
    exact hne (List.length_eq_zero.mp hlen)

unseal Rat.add Rat.mul Rat.inv Rat.ofScientific Rat.sub in
/-- C5 witness: a two-row payload whose first row is dropped (zero
quantity) and whose second survives normalizes successfully to exactly
the surviving cleaned row; the same payload with only the malformed row
raises the integrity error with dropped count 1. -/
theorem claim_C5_witness :
    (([("products", JVal.arr [.obj [("name", .str "x"), ("quantity", .num 0),
        ("unit_price", .num 1), ("total_price", .num 1)],
      .obj [("name", .str "Ceai"), ("quantity", .num 2),
        ("unit_price", .num 3), ("total_price", .num 6)]])] :
      List (String × JVal)).lookup "products" =
      some (.arr [.obj [("name", .str "x"), ("quantity", .num 0),
        ("unit_price", .num 1), ("total_price", .num 1)],
      .obj [("name", .str "Ceai"), ("quantity", .num 2),
        ("unit_price", .num 3), ("total_price", .num 6)]])) ∧
    (∃ out, normalize_invoice_payload (.obj [("products", JVal.arr
        [.obj [("name", .str "x"), ("quantity", .num 0),
          ("unit_price", .num 1), ("total_price", .num 1)],
        .obj [("name", .str "Ceai"), ("quantity", .num 2),
          ("unit_price", .num 3), ("total_price", .num 6)]])]) = .ok out ∧
      out.lookup "products" = some (.arr ([.obj [("name", .str "x"),
          ("quantity", .num 0), ("unit_price", .num 1),
          ("total_price", .num 1)],
        .obj [("name", .str "Ceai"), ("quantity", .num 2),
          ("unit_price", .num 3), ("total_price", .num 6)]].filterMap
            cleanRow |>.map .obj))) ∧
    normalize_invoice_payload (.obj [("products", JVal.arr
        [.obj [("name", .str "x"), ("quantity", .num 0),
          ("unit_price", .num 1), ("total_price", .num 1)]])]) =
      .error (.integrityError "LLM returned 1 malformed product rows") := by
  refine ⟨rfl, ?_, ?_⟩
  · exact (claim_C5 [("products", JVal.arr [.obj [("name", .str "x"),
        ("quantity", .num 0), ("unit_price", .num 1), ("total_price", .num 1)],
      .obj [("name", .str "Ceai"), ("quantity", .num 2),
        ("unit_price", .num 3), ("total_price", .num 6)]])]
      [.obj [("name", .str "x"), ("quantity", .num 0),
        ("unit_price", .num 1), ("total_price", .num 1)],
       .obj [("name", .str "Ceai"), ("quantity", .num 2),
        ("unit_price", .num 3), ("total_price", .num 6)]] rfl
      (List.cons_ne_nil _ _)).2.1 (by decide)
  · have h := (claim_C5 [("products", JVal.arr
      [.obj [("name", .str "x"), ("quantity", .num 0),
        ("unit_price", .num 1), ("total_price", .num 1)]])]
      [.obj [("name", .str "x"), ("quantity", .num 0),
        ("unit_price", .num 1), ("total_price", .num 1)]] rfl
      (List.cons_ne_nil _ _)).2.2 (by decide)
    rw [h]
    rfl

/-- The source's unit-conversion if-chain agrees with the claim's
"kg and l unchanged, otherwise divide by 1000" factor. -/
theorem unitToKg_eq_spec (u : List Char) (v : ℚ) :
    unitToKg u v = v * specUnitFactor u := by
  rw [unitToKg, specUnitFactor]
  by_cases h1 : u = ['k', 'g'] <;> by_cases h2 : u = ['g'] <;>
    by_cases h3 : u = ['l'] <;> simp_all <;> ring

unseal Rat.add Rat.mul Rat.inv Rat.ofScientific Rat.sub in
/-- C3: `parse_weight_candidate` is total by construction and implements
the claim's reference definition (`specWeightParse`): multipack first,
then single token, kilogram conversion with g/ml divided by 1000,
uppercased space-stripped token, confidence 0.98, and all-null result on
a non-positive value or no match; in particular `"24X2G CEAI"` parses to
0.048 kg with token `"24X2G"` and `"Suc 750ml"` to 0.75 kg with token
`"750ML"`. -/
theorem claim_C3 :
    (∀ s : String, parse_weight_candidate s = specWeightParse s) ∧
    parse_weight_candidate "24X2G CEAI" =
      ⟨some 0.048, some "24X2G", some 0.98⟩ ∧
    parse_weight_candidate "Suc 750ml" =
      ⟨some 0.75, some "750ML", some 0.98⟩ := by
  refine ⟨?_, by decide, by decide⟩
  intro s
  rw [parse_weight_candidate, specWeightParse]
  cases hm : regexSearch matchMultiAt s with
  | some res =>
    obtain ⟨g0, n1, n2, u⟩ := res
    dsimp only
    rw [specWeightResult]
    rcases le_or_lt (numValue n1 * numValue n2) 0 with hle | hlt
    · rw [if_pos hle, if_neg (not_lt.mpr hle)]
    · rw [if_neg (not_le.mpr hlt), if_pos hlt, unitToKg_eq_spec]
  | none =>
    cases hs : regexSearch matchSingleAt s with
    | none => rfl
    | some res =>
      obtain ⟨g0, n, u⟩ := res
      dsimp only
      rw [specWeightResult]
      rcases le_or_lt (numValue n) 0 with hle | hlt
      · rw [if_pos hle, if_neg (not_lt.mpr hle)]
      · rw [if_neg (not_le.mpr hlt), if_pos hlt, unitToKg_eq_spec]

unseal Rat.add Rat.mul Rat.inv Rat.ofScientific Rat.sub in
/-- C3 witness: the refinement instantiated at the spec's multipack
example string. -/
theorem claim_C3_witness :
    parse_weight_candidate "24X2G CEAI" = specWeightParse "24X2G CEAI" ∧
    specWeightParse "24X2G CEAI" = ⟨some 0.048, some "24X2G", some 0.98⟩ :=
  ⟨claim_C3.1 "24X2G CEAI", by decide⟩

/-- The source's padding `max(1, target - len)` places the word at column
`max(len + 1, target)`, the claim's start-column rule. -/
theorem renderLine_eq_spec (scale : ℚ) (ws : List Word) :
    renderLine scale ws = specRenderLine scale ws := by
  rw [renderLine, specRenderLine]
  congr 1
  funext line_str word
  have hpad : max ((line_str.length : ℤ) + 1) (pyTrunc (word.x0 * scale)) -
      (line_str.length : ℤ) =
      max 1 (pyTrunc (word.x0 * scale) - (line_str.length : ℤ)) := by
    rw [← max_sub_sub_right, add_sub_cancel_left]
  dsimp only
  rw [hpad]

/-- `lines[top] = []` followed by `lines[top].append(word)` on a fresh key
appends the new singleton bucket at the end. -/
theorem bucketSet_fresh (buckets : List (ℚ × List Word)) (k : ℚ)
    (h : ∀ kv ∈ buckets, kv.1 ≠ k) :
    bucketSet buckets k [] = buckets ++ [(k, [])] := by
  induction buckets with
  | nil => rfl
  | cons kv rest ih =>
    obtain ⟨k₀, ws₀⟩ := kv
    have hk : (k₀ == k) = false :=
      beq_eq_false_iff_ne.mpr (h (k₀, ws₀) (by simp))
    simp only [bucketSet, hk, Bool.false_eq_true, if_false, List.cons_append,
      List.cons.injEq, true_and]
    exact ih (fun kv hkv => h kv (by simp [hkv]))

/-- Appending a word to the (unique, final) fresh bucket. -/
theorem bucketAppend_fresh (buckets : List (ℚ × List Word)) (k : ℚ) (w : Word)
    (h : ∀ kv ∈ buckets, kv.1 ≠ k) :
    bucketAppend (buckets ++ [(k, [])]) k w = buckets ++ [(k, [w])] := by
  induction buckets with
  | nil => simp [bucketAppend]
  | cons kv rest ih =>
    obtain ⟨k₀, ws₀⟩ := kv
    have hk : (k₀ == k) = false :=
      beq_eq_false_iff_ne.mpr (h (k₀, ws₀) (by simp))
    simp only [List.cons_append, bucketAppend, hk, Bool.false_eq_true, if_false,
      List.cons.injEq, true_and]
    exact ih (fun kv hkv => h kv (by simp [hkv]))

/-- With a non-negative tolerance the source's grouping step (dict key
creation plus append) equals the claim's "join the first bucket within
tolerance, else create a new bucket" step. -/
theorem addWord_eq_spec (tol : ℚ) (htol : 0 ≤ tol)
    (buckets : List (ℚ × List Word)) (w : Word) :
    addWordToBuckets tol buckets w = specAddWord tol buckets w := by
  rw [addWordToBuckets, specAddWord]
  cases hf : buckets.find? (fun b => decide (|b.1 - w.top| ≤ tol)) with
  | some b => rfl
  | none =>
    have hfresh : ∀ kv ∈ buckets, kv.1 ≠ w.top := by
      intro kv hkv heq
      have hnot := List.find?_eq_none.mp hf kv hkv
      exact hnot (by simp [heq, htol])
    rw [bucketSet_fresh buckets w.top hfresh,
      bucketAppend_fresh buckets w.top w hfresh]

/-- C8: for a non-empty word list and the configured (non-negative)
tolerance, the source text-grid builder coincides with the claim's
description: first-bucket-within-tolerance grouping in creation order,
lines rendered sorted by representative top, words ordered by ascending
`x0`, each placed at character column
`max(current length + 1, int(x0 * scale_factor))`. -/
theorem claim_C8 (tol scale : ℚ) (htol : 0 ≤ tol) (words : List Word)
    (hne : words ≠ []) :
    generate_text_grid tol scale words = specTextGrid tol scale words := by
  rw [generate_text_grid, specTextGrid,
    if_neg (by simpa [List.isEmpty_iff] using hne)]
  have hfold : words.foldl (addWordToBuckets tol) [] =
      words.foldl (specAddWord tol) [] :=
    List.foldl_ext _ _ _ (fun acc w _ => addWord_eq_spec tol htol acc w)
  rw [hfold]
  simp only [renderLine_eq_spec]

unseal Rat.add Rat.mul Rat.inv Rat.ofScientific Rat.sub in
/-- C8 witness: the equivalence instantiated on a concrete three-word
page (two words within tolerance of each other, one on another line),
with both hypotheses discharged there. -/
theorem claim_C8_witness :
    (0 : ℚ) ≤ 3 ∧
    ([⟨12, 50, "Pret"⟩, ⟨10, 0, "Cant."⟩, ⟨30, 25, "5"⟩] : List Word) ≠ [] ∧
    generate_text_grid 3 0.2 [⟨12, 50, "Pret"⟩, ⟨10, 0, "Cant."⟩, ⟨30, 25, "5"⟩] =
      specTextGrid 3 0.2 [⟨12, 50, "Pret"⟩, ⟨10, 0, "Cant."⟩, ⟨30, 25, "5"⟩] ∧
    generate_text_grid 3 0.2 [⟨12, 50, "Pret"⟩, ⟨10, 0, "Cant."⟩, ⟨30, 25, "5"⟩] =
      " Cant.    Pret\n     5" :=
  ⟨by norm_num, List.cons_ne_nil _ _,
   claim_C8 3 0.2 (by norm_num) _ (List.cons_ne_nil _ _),
   by decide⟩

end InvProc
